import Mathlib

/-!
Verification of Formwerk's form-primitive composables against their
natural-language specification: a shallow embedding of the state and the
pure attribute/state derivations of `useRadioGroup`, `useCheckbox`,
`useCheckboxGroup` and `useForm`, with theorems settling the spec's claims.

Value types are kept generic (`{α : Type} [DecidableEq α]`), mirroring the
source's generic `TValue` / `TCheckbox` type parameters; decidable equality
on the value type stands for the deep structural equality the library
applies to its plain (nested key/value) form values.
-/

namespace Formwerk

/-- Modelled from the spec: `isEqual` of `utils/common` (not among the staged
sources) is the deep structural equality the library applies to form values,
which the spec describes as "plain nested key/value trees"; modelled as the
decidable equality of the generic value type. -/
def isEqual {α : Type} [DecidableEq α] (a b : α) : Bool :=
  decide (a = b)

/-- JavaScript's `Array.prototype.findIndex`, with `none` standing for the
`-1` "not found" result (the source only compares the result against `-1` /
`< 0`). -/
def findIndex {α : Type} (p : α → Bool) : List α → Option Nat
  | [] => none
  | a :: as => if p a then some 0 else (findIndex p as).map (fun k => k + 1)

theorem findIndex_lt_length {α : Type} (p : α → Bool) :
    ∀ (l : List α) (i : Nat), findIndex p l = some i → i < l.length := by
  intro l
  induction l with
  | nil => intro i h; simp [findIndex] at h
  | cons a as ih =>
    intro i h
    by_cases hp : p a
    · simp [findIndex, hp] at h
      simp only [List.length_cons]
      omega
    · simp [findIndex, hp] at h
      obtain ⟨k, hk, rfl⟩ := h
      have := ih k hk
      simp
      omega

/-! ### useRadioGroup: roving selection (`src/packages/core/src/useRadio/useRadioGroup.ts`) -/

/-- A registered radio of a radio group. Modelled from the spec: the
`RadioItemContext` callbacks registered with the group (the radio component
itself is not among the staged sources) are backed by a per-radio value and
a disabled flag: `isChecked()` compares the group's model value with the
radio's value, `setChecked()` writes the radio's value into the group's
model value, `isDisabled()` reports the flag. -/
structure RadioItem (α : Type) where
  value : α
  disabled : Bool
deriving DecidableEq

/-- The registered radio's `isChecked()` callback: the group's field value
equals the radio's own value. -/
def RadioItem.isChecked {α : Type} [DecidableEq α] (fv : Option α) (r : RadioItem α) : Bool :=
  decide (fv = some r.value)

/-- Modelled from the spec: `getNextCycleArrIdx` of `utils/common` (not among
the staged sources) realizes the cyclic wrap-around of roving selection
("cycling back to the first ... after the last"): an integer index is
normalized into the array's bounds by taking it modulo the array length,
negative indices wrapping from the end. -/
def getNextCycleArrIdx {α : Type} (idx : Int) (arr : List α) : Nat :=
  (idx % (arr.length : Int)).toNat

/-- `handleArrowNext` of `useRadioGroup`: the returned value is the group's
field value after the handler ran (the only state `setChecked` writes).
`availableCandidates` (the non-disabled radios) is inlined at its two use
sites. When no radio is checked (`findIndex` is `-1`) the first registered
radio is checked; otherwise the candidate at the cycled index
`currentIdx + 1` — an index into the unfiltered list — is checked, the
optional-chaining call leaving the value unchanged when that candidate is
absent. -/
def handleArrowNext {α : Type} [DecidableEq α] (radios : List (RadioItem α)) (fv : Option α) :
    Option α :=
  match findIndex (fun r => RadioItem.isChecked fv r) radios with
  | none =>
    match radios.head? with
    | some r => some r.value
    | none => fv
  | some currentIdx =>
    match (radios.filter (fun r => !r.disabled))[getNextCycleArrIdx ((currentIdx : Int) + 1)
        (radios.filter (fun r => !r.disabled))]? with
    | some r => some r.value
    | none => fv

/-- `handleArrowPrevious` of `useRadioGroup`, symmetric to `handleArrowNext`
with the cycled index `currentIdx - 1`. -/
def handleArrowPrevious {α : Type} [DecidableEq α] (radios : List (RadioItem α)) (fv : Option α) :
    Option α :=
  match findIndex (fun r => RadioItem.isChecked fv r) radios with
  | none =>
    match radios.head? with
    | some r => some r.value
    | none => fv
  | some currentIdx =>
    match (radios.filter (fun r => !r.disabled))[getNextCycleArrIdx ((currentIdx : Int) - 1)
        (radios.filter (fun r => !r.disabled))]? with
    | some r => some r.value
    | none => fv

/-- Stated from the claim's words: whether a radio exists at position `j` and
is not disabled. -/
def enabledAt {α : Type} (radios : List (RadioItem α)) (j : Nat) : Bool :=
  match radios[j]? with
  | some r => !r.disabled
  | none => false

/-- Stated from the claim's words: the first position in the given candidate
order whose radio is not disabled. -/
def findFirstEnabled {α : Type} (radios : List (RadioItem α)) : List Nat → Option Nat
  | [] => none
  | j :: rest => if enabledAt radios j then some j else findFirstEnabled radios rest

/-- Stated from the claim's words: the positions of a list of `n` radios
strictly after position `i`, in cyclic order (first `i + 1`, wrapping past the
last position back to the first, ending at `i` itself). -/
def cycleIdxsAfter (n i : Nat) : List Nat :=
  (List.range n).map (fun k => (i + 1 + k) % n)

/-- Stated from the claim's words: the positions of a list of `n` radios
strictly before position `i`, in cyclic order (first `i - 1`, wrapping past
the first position back to the last, ending at `i` itself). -/
def cycleIdxsBefore (n i : Nat) : List Nat :=
  (List.range n).map (fun k => (i + n - (1 + k)) % n)

/-- Stated from the claim's words: on a next-direction arrow key, when some
registered radio is checked, the check moves to the next non-disabled radio
after it in cyclic order; when none is checked, the first registered radio
is checked. -/
def specArrowNext {α : Type} [DecidableEq α] (radios : List (RadioItem α)) (fv : Option α) :
    Option α :=
  match findIndex (fun r => RadioItem.isChecked fv r) radios with
  | none =>
    match radios.head? with
    | some r => some r.value
    | none => fv
  | some i =>
    match findFirstEnabled radios (cycleIdxsAfter radios.length i) with
    | some j =>
      match radios[j]? with
      | some r => some r.value
      | none => fv
    | none => fv

/-- Stated from the claim's words: on a previous-direction arrow key, when
some registered radio is checked, the check moves to the previous
non-disabled radio before it in cyclic order; when none is checked, the
first registered radio is checked. -/
def specArrowPrevious {α : Type} [DecidableEq α] (radios : List (RadioItem α)) (fv : Option α) :
    Option α :=
  match findIndex (fun r => RadioItem.isChecked fv r) radios with
  | none =>
    match radios.head? with
    | some r => some r.value
    | none => fv
  | some i =>
    match findFirstEnabled radios (cycleIdxsBefore radios.length i) with
    | some j =>
      match radios[j]? with
      | some r => some r.value
      | none => fv
    | none => fv

theorem getNextCycleArrIdx_succ {α : Type} (i : Nat) (arr : List α) :
    getNextCycleArrIdx ((i : Int) + 1) arr = (i + 1) % arr.length := by
  unfold getNextCycleArrIdx
  rw [show ((i : Int) + 1) = ((i + 1 : Nat) : Int) by omega, ← Int.natCast_mod,
    Int.toNat_natCast]

theorem getNextCycleArrIdx_pred {α : Type} (i : Nat) (arr : List α) (h : i < arr.length) :
    getNextCycleArrIdx ((i : Int) - 1) arr = (i + arr.length - 1) % arr.length := by
  have hn : 0 < arr.length := Nat.lt_of_le_of_lt (Nat.zero_le i) h
  unfold getNextCycleArrIdx
  rw [show ((i : Int) - 1) =
      ((i + arr.length - 1 : Nat) : Int) + (arr.length : Int) * (-1) by omega,
    Int.add_mul_emod_self_left, ← Int.natCast_mod, Int.toNat_natCast]

theorem findFirstEnabled_all {α : Type} (radios : List (RadioItem α)) (l : List Nat)
    (h : ∀ j ∈ l, enabledAt radios j = true) :
    findFirstEnabled radios l = l.head? := by
  cases l with
  | nil => rfl
  | cons j rest => simp [findFirstEnabled, h j (List.mem_cons_self j rest)]

theorem enabledAt_of_all {α : Type} (radios : List (RadioItem α))
    (hall : ∀ r ∈ radios, r.disabled = false) (j : Nat) (hj : j < radios.length) :
    enabledAt radios j = true := by
  unfold enabledAt
  rw [List.getElem?_eq_getElem hj]
  simp [hall _ (List.getElem_mem hj)]

theorem headQ_range_map (f : Nat → Nat) (n : Nat) (h : 0 < n) :
    ((List.range n).map f).head? = some (f 0) := by
  cases n with
  | zero => omega
  | succ m =>
    rw [List.range_succ_eq_map]
    simp

theorem cycleIdxsAfter_lt (n i : Nat) (h : 0 < n) : ∀ j ∈ cycleIdxsAfter n i, j < n := by
  intro j hj
  simp only [cycleIdxsAfter, List.mem_map, List.mem_range] at hj
  obtain ⟨k, _, rfl⟩ := hj
  exact Nat.mod_lt _ h

theorem cycleIdxsBefore_lt (n i : Nat) (h : 0 < n) : ∀ j ∈ cycleIdxsBefore n i, j < n := by
  intro j hj
  simp only [cycleIdxsBefore, List.mem_map, List.mem_range] at hj
  obtain ⟨k, _, rfl⟩ := hj
  exact Nat.mod_lt _ h

/-- C1 counterexample: in a group whose first registered radio is disabled
(`value 0`), with the radio of value `1` checked and the non-disabled radio of
value `2` registered after it, a next-direction arrow key leaves the check on
value `1` — `handleArrowNext` indexes the filtered candidate list with an index
computed on the unfiltered list — while the claim's roving selection
(`specArrowNext`) moves it to value `2`. -/
theorem radioGroup_arrowNext_counterexample :
    handleArrowNext
        ([⟨0, true⟩, ⟨1, false⟩, ⟨2, false⟩] : List (RadioItem Nat)) (some 1) = some 1 ∧
      specArrowNext
        ([⟨0, true⟩, ⟨1, false⟩, ⟨2, false⟩] : List (RadioItem Nat)) (some 1) = some 2 ∧
      (some 1 : Option Nat) ≠ some 2 := by
  decide

/-- C1 (amended): restricted to groups in which no registered radio is
disabled, the roving selection of `useRadioGroup` is as claimed: a
next-direction arrow key moves the check to the next radio after the
currently checked one, cycling back to the first after the last
(`specArrowNext`); a previous-direction arrow key moves it to the previous
radio, cycling (`specArrowPrevious`); and when no radio is checked, either
handler checks the first registered radio. -/
theorem radioGroup_roving_amended {α : Type} [DecidableEq α] (radios : List (RadioItem α))
    (fv : Option α) (hall : ∀ r ∈ radios, r.disabled = false) :
    handleArrowNext radios fv = specArrowNext radios fv ∧
      handleArrowPrevious radios fv = specArrowPrevious radios fv := by
  have hfilter : radios.filter (fun r => !r.disabled) = radios :=
    List.filter_eq_self.mpr (fun r hr => by simp [hall r hr])
  constructor
  · unfold handleArrowNext specArrowNext
    cases hidx : findIndex (fun r => RadioItem.isChecked fv r) radios with
    | none => rfl
    | some i =>
      dsimp only
      have hi : i < radios.length := findIndex_lt_length _ _ _ hidx
      have hn : 0 < radios.length := Nat.lt_of_le_of_lt (Nat.zero_le i) hi
      rw [hfilter, getNextCycleArrIdx_succ,
        findFirstEnabled_all radios _
          (fun j hj => enabledAt_of_all radios hall j (cycleIdxsAfter_lt _ _ hn j hj)),
        cycleIdxsAfter, headQ_range_map _ _ hn]
  · unfold handleArrowPrevious specArrowPrevious
    cases hidx : findIndex (fun r => RadioItem.isChecked fv r) radios with
    | none => rfl
    | some i =>
      dsimp only
      have hi : i < radios.length := findIndex_lt_length _ _ _ hidx
      have hn : 0 < radios.length := Nat.lt_of_le_of_lt (Nat.zero_le i) hi
      rw [hfilter, getNextCycleArrIdx_pred _ _ hi,
        findFirstEnabled_all radios _
          (fun j hj => enabledAt_of_all radios hall j (cycleIdxsBefore_lt _ _ hn j hj)),
        cycleIdxsBefore, headQ_range_map _ _ hn]

/-- C1 witness: the amended roving theorem applied to a concrete group of two
non-disabled radios with the first one checked. -/
theorem radioGroup_roving_witness :
    handleArrowNext ([⟨5, false⟩, ⟨7, false⟩] : List (RadioItem Nat)) (some 5) =
        specArrowNext ([⟨5, false⟩, ⟨7, false⟩] : List (RadioItem Nat)) (some 5) ∧
      handleArrowPrevious ([⟨5, false⟩, ⟨7, false⟩] : List (RadioItem Nat)) (some 5) =
        specArrowPrevious ([⟨5, false⟩, ⟨7, false⟩] : List (RadioItem Nat)) (some 5) :=
  radioGroup_roving_amended _ _ (by decide)

/-! ### useCheckboxGroup: membership toggling and group state (`src/unnamed/part_001`) -/

/-- Modelled from the spec: `toggleValueSelection` of `utils/common` (not
among the staged sources) realizes the checkbox group's "value toggling"
over its selection array: with no `force` argument it toggles membership of
`value` (appends it when no deep-equal element is present, removes it when
one is present); `force := true` ensures membership, `force := false`
removes it. -/
def toggleValueSelection {α : Type} [DecidableEq α] (current : List α) (value : α)
    (force : Option Bool) : List α :=
  let present := current.any (fun v => isEqual v value)
  let shouldAdd := force.getD (!present)
  if shouldAdd then (if present then current else current ++ [value])
  else current.filter (fun v => !isEqual v value)

/-- `toggleValue` of `useCheckboxGroup`: the group's field value after the
call — `toggleValueSelection` applied to the current value array (an absent
value standing in as the empty array) wrapped by `setValue`. -/
def CheckboxGroup.toggleValue {α : Type} [DecidableEq α] (fieldValue : Option (List α))
    (value : α) (force : Option Bool) : Option (List α) :=
  some (toggleValueSelection (fieldValue.getD []) value force)

/-- `hasValue` of `useCheckboxGroup`: whether some element of the value array
(an absent value standing in as the empty array) is deep-equal to `value`. -/
def CheckboxGroup.hasValue {α : Type} [DecidableEq α] (fieldValue : Option (List α))
    (value : α) : Bool :=
  (fieldValue.getD []).any (fun v => isEqual v value)

theorem hasValue_filter_out {α : Type} [DecidableEq α] (l : List α) (v : α) :
    (l.filter (fun w => !isEqual w v)).any (fun w => isEqual w v) = false := by
  rw [List.any_eq_false]
  intro x hx
  rw [List.mem_filter] at hx
  simpa using hx.2

theorem hasValue_append_self {α : Type} [DecidableEq α] (l : List α) (v : α) :
    (l ++ [v]).any (fun w => isEqual w v) = true := by
  simp [isEqual]

theorem CheckboxGroup.hasValue_some {α : Type} [DecidableEq α] (l : List α) (v : α) :
    CheckboxGroup.hasValue (some l) v = l.any (fun w => isEqual w v) := rfl

theorem CheckboxGroup.toggleValue_none_eq {α : Type} [DecidableEq α] (fv : Option (List α))
    (v : α) :
    CheckboxGroup.toggleValue fv v none =
      if (fv.getD []).any (fun w => isEqual w v) then
        some ((fv.getD []).filter (fun w => !isEqual w v))
      else some (fv.getD [] ++ [v]) := by
  by_cases hp : (fv.getD []).any (fun w => isEqual w v) <;>
    simp [CheckboxGroup.toggleValue, toggleValueSelection, hp]

/-- C2: for a checkbox group's value array and any value `v`, `toggleValue v`
with no `force` argument appends `v` when no element deep-equal to `v` is
present and removes the deep-equal elements when one is present (so `hasValue v`
becomes false), and calling it twice in a row restores `hasValue v`. -/
theorem checkboxGroup_toggleValue_spec {α : Type} [DecidableEq α] (fv : Option (List α))
    (v : α) :
    (CheckboxGroup.hasValue fv v = false →
        CheckboxGroup.toggleValue fv v none = some (fv.getD [] ++ [v])) ∧
      (CheckboxGroup.hasValue fv v = true →
        CheckboxGroup.hasValue (CheckboxGroup.toggleValue fv v none) v = false) ∧
      CheckboxGroup.hasValue
          (CheckboxGroup.toggleValue (CheckboxGroup.toggleValue fv v none) v none) v =
        CheckboxGroup.hasValue fv v := by
  by_cases hp : (fv.getD []).any (fun w => isEqual w v) = true
  · have h1 : CheckboxGroup.hasValue fv v = true := hp
    refine ⟨fun h => ?_, fun _ => ?_, ?_⟩
    · rw [h1] at h
      exact absurd h (by simp)
    · rw [CheckboxGroup.toggleValue_none_eq, if_pos hp, CheckboxGroup.hasValue_some]
      exact hasValue_filter_out _ _
    · rw [h1, CheckboxGroup.toggleValue_none_eq fv v, if_pos hp,
        CheckboxGroup.toggleValue_none_eq]
      simp only [Option.getD_some]
      rw [if_neg (by rw [hasValue_filter_out]; exact Bool.false_ne_true),
        CheckboxGroup.hasValue_some]
      exact hasValue_append_self _ _
  · have hp2 : (fv.getD []).any (fun w => isEqual w v) = false := by simpa using hp
    have h1 : CheckboxGroup.hasValue fv v = false := hp2
    refine ⟨fun _ => ?_, fun h => ?_, ?_⟩
    · rw [CheckboxGroup.toggleValue_none_eq, if_neg hp]
    · rw [h1] at h
      exact absurd h (by simp)
    · rw [h1, CheckboxGroup.toggleValue_none_eq fv v, if_neg hp,
        CheckboxGroup.toggleValue_none_eq]
      simp only [Option.getD_some]
      rw [if_pos (hasValue_append_self _ _), CheckboxGroup.hasValue_some]
      exact hasValue_filter_out _ _

/-- The checkbox group's tri-state (`CheckboxGroupState` of
`useCheckboxGroup`). -/
inductive CheckboxGroupState where
  | checked
  | unchecked
  | mixed
deriving DecidableEq

/-- `groupState` of `useCheckboxGroup`: `unchecked` when the value array is
absent or empty (both falsy guards of the source), `mixed` when its length is
strictly between zero and the number of registered checkboxes, `checked`
otherwise. -/
def groupState {α : Type} (fieldValue : Option (List α)) (numCheckboxes : Nat) :
    CheckboxGroupState :=
  match fieldValue with
  | none => .unchecked
  | some l =>
    if l.length = 0 then .unchecked
    else if 0 < l.length ∧ l.length < numCheckboxes then .mixed
    else .checked

/-- C9: the checkbox group state trichotomy — `unchecked` exactly when the
value array is absent or empty, `mixed` exactly when its length is strictly
between zero and the number of registered checkboxes, and `checked` exactly
otherwise (a non-empty array whose length equals or exceeds the number of
registered checkboxes). -/
theorem checkboxGroup_state_trichotomy {α : Type} (fv : Option (List α)) (n : Nat) :
    (groupState fv n = .unchecked ↔ fv = none ∨ fv = some ([] : List α)) ∧
      (groupState fv n = .mixed ↔ ∃ l, fv = some l ∧ 0 < l.length ∧ l.length < n) ∧
      (groupState fv n = .checked ↔ ∃ l, fv = some l ∧ 0 < l.length ∧ n ≤ l.length) := by
  rcases fv with _ | l
  · simp [groupState]
  · by_cases h0 : l.length = 0
    · rw [List.length_eq_zero] at h0
      subst h0
      simp [groupState]
    · have hl : 0 < l.length := Nat.pos_of_ne_zero h0
      have hne2 : l ≠ [] := fun he => h0 (by rw [he]; rfl)
      by_cases h1 : l.length < n
      · have hg : groupState (some l) n = .mixed := by
          simp only [groupState]
          rw [if_neg h0, if_pos ⟨hl, h1⟩]
        rw [hg]
        refine ⟨⟨fun h => absurd h (by decide), fun h => ?_⟩,
          ⟨fun _ => ⟨l, rfl, hl, h1⟩, fun _ => rfl⟩,
          ⟨fun h => absurd h (by decide), fun h => ?_⟩⟩
        · rcases h with h | h
          · exact absurd h (by simp)
          · rw [Option.some.injEq] at h
            exact absurd h hne2
        · obtain ⟨l2, he, -, hn2⟩ := h
          rw [Option.some.injEq] at he
          subst he
          exact absurd hn2 (by omega)
      · have hg : groupState (some l) n = .checked := by
          simp only [groupState]
          rw [if_neg h0, if_neg (fun hc => h1 hc.2)]
        rw [hg]
        refine ⟨⟨fun h => absurd h (by decide), fun h => ?_⟩,
          ⟨fun h => absurd h (by decide), fun h => ?_⟩,
          ⟨fun _ => ⟨l, rfl, hl, by omega⟩, fun _ => rfl⟩⟩
        · rcases h with h | h
          · exact absurd h (by simp)
          · rw [Option.some.injEq] at h
            exact absurd h hne2
        · obtain ⟨l2, he, -, hn2⟩ := h
          rw [Option.some.injEq] at he
          subst he
          exact absurd hn2 h1

/-! ### useCheckbox (`src/packages/core/src/useCheckbox/useCheckbox.ts`) -/

/-- A checkbox value: the generic `TValue` of `useCheckbox`, which the
defaulting expressions `toValue(props.trueValue) ?? true` and
`toValue(props.falseValue) ?? false` populate with the booleans `true` /
`false` when no custom value is given. -/
inductive CbVal (α : Type) where
  | bool (b : Bool)
  | custom (v : α)
deriving DecidableEq

/-- The props of `useCheckbox` that its value logic reads. -/
structure CheckboxProps (α : Type) where
  disabled : Bool
  indeterminate : Bool
  trueValue : Option (CbVal α)
  falseValue : Option (CbVal α)
deriving DecidableEq

/-- `getTrueValue` of `useCheckbox`: `toValue(props.trueValue) ?? true`. -/
def getTrueValue {α : Type} (p : CheckboxProps α) : CbVal α :=
  p.trueValue.getD (CbVal.bool true)

/-- `getFalseValue` of `useCheckbox`: `toValue(props.falseValue) ?? false`. -/
def getFalseValue {α : Type} (p : CheckboxProps α) : CbVal α :=
  p.falseValue.getD (CbVal.bool false)

/-- The value state behind a checkbox: its own field value when it stands
alone, or the owning group's value array when it is grouped (the computed
`fieldValue` of `useCheckbox` reads through to the group's model value). -/
inductive CheckboxField (α : Type) where
  | ungrouped (fieldValue : CbVal α)
  | grouped (groupValue : Option (List (CbVal α)))
deriving DecidableEq

/-- The computed `checked` of `useCheckbox`: for a grouped checkbox,
`group.hasValue(getTrueValue())`; otherwise `fieldValue === getTrueValue()`
(the source's strict equality, which the decidable equality of `CbVal`
models). -/
def Checkbox.checked {α : Type} [DecidableEq α] (p : CheckboxProps α) (st : CheckboxField α) :
    Bool :=
  match st with
  | .grouped g => CheckboxGroup.hasValue g (getTrueValue p)
  | .ungrouped fv => decide (fv = getTrueValue p)

/-- `toggleValue` of `useCheckbox`: a no-op while `indeterminate` is set;
otherwise `shouldTrue := force ?? !checked` picks the next value and the
assignment to `fieldValue` either writes it (ungrouped) or — through the
grouped computed setter, which ignores the assigned value — calls
`group.toggleValue(getTrueValue())` with no force argument. -/
def Checkbox.toggleValue {α : Type} [DecidableEq α] (p : CheckboxProps α)
    (st : CheckboxField α) (force : Option Bool) : CheckboxField α :=
  if p.indeterminate then st
  else
    let shouldTrue := force.getD (!Checkbox.checked p st)
    match st with
    | .ungrouped _ => .ungrouped (if shouldTrue then getTrueValue p else getFalseValue p)
    | .grouped g => .grouped (CheckboxGroup.toggleValue g (getTrueValue p) none)

/-- `setChecked` of `useCheckbox`: a no-op while `indeterminate` is set;
otherwise `group?.toggleValue(getTrueValue(), force)` — which changes nothing
for an ungrouped checkbox. -/
def Checkbox.setChecked {α : Type} [DecidableEq α] (p : CheckboxProps α)
    (st : CheckboxField α) (force : Option Bool) : CheckboxField α :=
  if p.indeterminate then st
  else
    match st with
    | .ungrouped fv => .ungrouped fv
    | .grouped g => .grouped (CheckboxGroup.toggleValue g (getTrueValue p) force)

/-- C3: for an ungrouped checkbox that is neither disabled nor indeterminate,
`toggleValue()` with no argument writes `trueValue` (default `true`) into the
field value when the checkbox is unchecked and `falseValue` (default `false`)
when it is checked, and `toggleValue force` writes `trueValue` when `force`
is `true` and `falseValue` when it is `false`. -/
theorem checkbox_toggleValue_ungrouped {α : Type} [DecidableEq α] (p : CheckboxProps α)
    (fv : CbVal α) (_hdis : p.disabled = false) (hind : p.indeterminate = false) :
    (Checkbox.checked p (.ungrouped fv) = false →
        Checkbox.toggleValue p (.ungrouped fv) none = .ungrouped (getTrueValue p)) ∧
      (Checkbox.checked p (.ungrouped fv) = true →
        Checkbox.toggleValue p (.ungrouped fv) none = .ungrouped (getFalseValue p)) ∧
      Checkbox.toggleValue p (.ungrouped fv) (some true) = .ungrouped (getTrueValue p) ∧
      Checkbox.toggleValue p (.ungrouped fv) (some false) = .ungrouped (getFalseValue p) := by
  refine ⟨fun h => ?_, fun h => ?_, ?_, ?_⟩ <;>
    simp_all [Checkbox.toggleValue, hind]

/-- C3 witness: the ungrouped toggle theorem applied to a default-valued
checkbox (no custom true/false values) currently holding `false`. -/
theorem checkbox_toggleValue_ungrouped_witness :
    (Checkbox.checked (α := Nat) ⟨false, false, none, none⟩
          (.ungrouped (CbVal.bool false)) = false →
        Checkbox.toggleValue (α := Nat) ⟨false, false, none, none⟩
            (.ungrouped (CbVal.bool false)) none =
          .ungrouped (getTrueValue ⟨false, false, none, none⟩)) ∧
      (Checkbox.checked (α := Nat) ⟨false, false, none, none⟩
          (.ungrouped (CbVal.bool false)) = true →
        Checkbox.toggleValue (α := Nat) ⟨false, false, none, none⟩
            (.ungrouped (CbVal.bool false)) none =
          .ungrouped (getFalseValue ⟨false, false, none, none⟩)) ∧
      Checkbox.toggleValue (α := Nat) ⟨false, false, none, none⟩
          (.ungrouped (CbVal.bool false)) (some true) =
        .ungrouped (getTrueValue ⟨false, false, none, none⟩) ∧
      Checkbox.toggleValue (α := Nat) ⟨false, false, none, none⟩
          (.ungrouped (CbVal.bool false)) (some false) =
        .ungrouped (getFalseValue ⟨false, false, none, none⟩) :=
  checkbox_toggleValue_ungrouped ⟨false, false, none, none⟩ (CbVal.bool false) rfl rfl

/-- C10: while the `indeterminate` prop is set, both `setChecked` and
`toggleValue` return without touching the checkbox's value state, whatever
their `force` argument. -/
theorem checkbox_indeterminate_freezes {α : Type} [DecidableEq α] (p : CheckboxProps α)
    (st : CheckboxField α) (force : Option Bool) (h : p.indeterminate = true) :
    Checkbox.setChecked p st force = st ∧ Checkbox.toggleValue p st force = st := by
  constructor <;> simp [Checkbox.setChecked, Checkbox.toggleValue, h]

/-- C10 witness: the indeterminate-freeze theorem applied to a concrete
indeterminate grouped checkbox with `force := some true`. -/
theorem checkbox_indeterminate_freezes_witness :
    Checkbox.setChecked (α := Nat) ⟨false, true, none, none⟩
          (.grouped (some [CbVal.bool true])) (some true) =
        .grouped (some [CbVal.bool true]) ∧
      Checkbox.toggleValue (α := Nat) ⟨false, true, none, none⟩
          (.grouped (some [CbVal.bool true])) (some true) =
        .grouped (some [CbVal.bool true]) :=
  checkbox_indeterminate_freezes ⟨false, true, none, none⟩
    (.grouped (some [CbVal.bool true])) (some true) rfl

/-- The flags a grouped checkbox reads from its owning group's context
(`CheckboxGroupContext`): `none` stands for an ungrouped checkbox (the
optional-chaining `group?.` reads). -/
structure GroupFlags where
  readonly : Bool
  required : Bool
  disabled : Bool
deriving DecidableEq

/-- `isDisabled` of `useCheckbox`:
`toValue(props.disabled || group?.disabled) ?? false`. -/
def Checkbox.isDisabled {α : Type} (p : CheckboxProps α) (group : Option GroupFlags) : Bool :=
  p.disabled || (group.map (fun g => g.disabled)).getD false

/-- The DOM props `checkboxProps` of `useCheckbox` carries for a custom
(non-input) checkbox element; field names stand for the source's
`role`, `tabindex`, `aria-checked`, `aria-readonly`, `aria-disabled` and
`aria-required` attributes. -/
structure CheckboxDomProps where
  role : String
  tabindex : String
  ariaChecked : Bool
  ariaReadonly : Option Bool
  ariaDisabled : Option Bool
  ariaRequired : Option Bool
deriving DecidableEq

/-- `checkboxProps` of `useCheckbox` (through `createBindings(false)`): role
`checkbox`, tabindex `-1` when the `disabled` prop is set and `0` otherwise,
`aria-checked` from the computed `checked`, `aria-readonly` /
`aria-disabled` as `true`-or-absent (`|| undefined`), and `aria-required`
read straight off the group. -/
def checkboxProps {α : Type} [DecidableEq α] (p : CheckboxProps α) (group : Option GroupFlags)
    (st : CheckboxField α) : CheckboxDomProps :=
  { role := "checkbox"
    tabindex := if p.disabled then "-1" else "0"
    ariaChecked := Checkbox.checked p st
    ariaReadonly := if (group.map (fun g => g.readonly)).getD false then some true else none
    ariaDisabled := if Checkbox.isDisabled p group then some true else none
    ariaRequired := group.map (fun g => g.required) }

/-- C8: for every checkbox, the computed `checkboxProps` carry role
`checkbox`, tabindex `-1` when the checkbox is disabled and `0` otherwise,
and `aria-checked` equal to the checkbox's current checked state. -/
theorem checkbox_domProps {α : Type} [DecidableEq α] (p : CheckboxProps α)
    (group : Option GroupFlags) (st : CheckboxField α) :
    (checkboxProps p group st).role = "checkbox" ∧
      ((p.disabled = true → (checkboxProps p group st).tabindex = "-1") ∧
        (p.disabled = false → (checkboxProps p group st).tabindex = "0")) ∧
      (checkboxProps p group st).ariaChecked = Checkbox.checked p st := by
  refine ⟨rfl, ⟨fun h => ?_, fun h => ?_⟩, rfl⟩ <;> simp [checkboxProps, h]

/-! ### useForm: dirty, touched, valid (`src/unnamed/part_002`) -/

mutual

/-- A node of the form's touched-state tree (`TouchedSchema`): a boolean
leaf per field, objects of named children for nested fields. -/
inductive TouchedTree where
  | leaf : Bool → TouchedTree
  | node : TouchedForest → TouchedTree

/-- The named children of a `TouchedTree` object node. -/
inductive TouchedForest where
  | nil : TouchedForest
  | fcons : String → TouchedTree → TouchedForest → TouchedForest

end

mutual

/-- Modelled from the spec: `findLeaf` of `utils/path` (not among the staged
sources) walks a plain nested key/value tree and returns the first leaf
satisfying the predicate, or undefined. -/
def findLeaf (p : Bool → Bool) : TouchedTree → Option Bool
  | .leaf b => if p b then some b else none
  | .node children => findLeafF p children

/-- `findLeaf` over an object node's children, first match wins. -/
def findLeafF (p : Bool → Bool) : TouchedForest → Option Bool
  | .nil => none
  | .fcons _ t rest =>
    match findLeaf p t with
    | some b => some b
    | none => findLeafF p rest

end

mutual

/-- All leaves of a touched tree, in order. -/
def leavesT : TouchedTree → List Bool
  | .leaf b => [b]
  | .node children => leavesF children

/-- All leaves under an object node's children, in order. -/
def leavesF : TouchedForest → List Bool
  | .nil => []
  | .fcons _ t rest => leavesT t ++ leavesF rest

end

/-- The state of a form created by `useForm` that its status flags read:
the current values tree, the initial-values snapshot taken at creation
(`valuesSnapshot.originals`), the touched tree, and the error messages the
context collected. -/
structure FormState (β : Type) where
  values : β
  initialValues : β
  touched : TouchedTree
  errors : List String

/-- Modelled from the spec: the form context's `hasErrors` reports whether
its "schema-validation error collection" holds any error message. -/
def FormState.hasErrors {β : Type} (f : FormState β) : Bool :=
  !f.errors.isEmpty

/-- `isDirty` of `useForm`: `!isEqual(values, valuesSnapshot.originals.value)`. -/
def FormState.isDirty {β : Type} [DecidableEq β] (f : FormState β) : Bool :=
  !isEqual f.values f.initialValues

/-- `isTouched` of `useForm`: `!!findLeaf(touched, l => l === true)` — the
double negation turns the found leaf (or undefined) into a boolean. -/
def FormState.isTouched {β : Type} (f : FormState β) : Bool :=
  match findLeaf (fun l => l == true) f.touched with
  | some b => b
  | none => false

/-- `isValid` of `useForm`: `!ctx.hasErrors()`. -/
def FormState.isValid {β : Type} (f : FormState β) : Bool :=
  !f.hasErrors

/-- C4: a form is dirty exactly when its current values differ (by the deep
equality `isEqual` models) from the initial-values snapshot taken at form
creation. -/
theorem form_isDirty_iff {β : Type} [DecidableEq β] (f : FormState β) :
    f.isDirty = true ↔ f.values ≠ f.initialValues := by
  simp [FormState.isDirty, isEqual]

/-- C6: a form is valid exactly when the form context holds no errors. -/
theorem form_isValid_iff {β : Type} (f : FormState β) :
    f.isValid = true ↔ f.errors = [] := by
  simp [FormState.isValid, FormState.hasErrors, List.isEmpty_iff]

mutual

theorem findLeafT_true_eq (t : TouchedTree) :
    findLeaf (fun l => l == true) t = if true ∈ leavesT t then some true else none := by
  cases t with
  | leaf b =>
    cases b <;> simp [findLeaf, leavesT]
  | node children =>
    rw [findLeaf, leavesT, findLeafF_true_eq children]

theorem findLeafF_true_eq (f : TouchedForest) :
    findLeafF (fun l => l == true) f = if true ∈ leavesF f then some true else none := by
  cases f with
  | nil => simp [findLeafF, leavesF]
  | fcons k t rest =>
    rw [findLeafF, findLeafT_true_eq t, findLeafF_true_eq rest, leavesF]
    by_cases ht : true ∈ leavesT t
    · simp [ht]
    · by_cases hr : true ∈ leavesF rest <;> simp [ht, hr]

end

/-- C7: a form is touched exactly when at least one leaf of its touched tree
equals `true`. -/
theorem form_isTouched_iff {β : Type} (f : FormState β) :
    f.isTouched = true ↔ true ∈ leavesT f.touched := by
  rw [FormState.isTouched, findLeafT_true_eq]
  by_cases h : true ∈ leavesT f.touched <;> simp [h]

/-! ### useRadioGroup: ARIA attribute derivation (`src/packages/core/src/useRadio/useRadioGroup.ts`) -/

/-- Modelled from the spec: `createDescribedByProps` of `utils/common` (not
among the staged sources) derives element ids for the description and error
message regions from the input id and exposes `describedBy`, the value
surfaced as `aria-describedby`: the error message element's id while an
error message is present, else the description element's id while a
description is present, else absent (empty strings standing for the falsy
absent values). -/
def describedBy (inputId errorMessage description : String) : Option String :=
  if errorMessage ≠ "" then some (inputId ++ "-e")
  else if description ≠ "" then some (inputId ++ "-d")
  else none

/-- The DOM props of the radio group element (`RadioGroupDomProps`); field
names stand for the source's `dir`, `role`, `aria-describedby` and
`aria-invalid` attributes. -/
structure RadioGroupDomProps where
  dir : String
  role : String
  ariaDescribedby : Option String
  ariaInvalid : Option Bool
deriving DecidableEq

/-- The computed `radioGroupProps` of `useRadioGroup`: `dir` defaulting to
`ltr`, role `radiogroup`, `aria-describedby` from `describedBy()`, and
`aria-invalid` as `errorMessage.value ? true : undefined` (an empty error
message string is falsy). -/
def radioGroupProps (groupId : String) (dir : Option String)
    (errorMessage description : String) : RadioGroupDomProps :=
  { dir := dir.getD "ltr"
    role := "radiogroup"
    ariaDescribedby := describedBy groupId errorMessage description
    ariaInvalid := if errorMessage ≠ "" then some true else none }

/-- C5: the radio group's computed props carry `aria-invalid` equal to `true`
exactly when the group's error message is non-empty and absent otherwise,
and carry an `aria-describedby` derived (via `describedBy`) from the
description and error message element ids. -/
theorem radioGroup_aria (groupId : String) (dir : Option String)
    (errorMessage description : String) :
    ((radioGroupProps groupId dir errorMessage description).ariaInvalid = some true ↔
        errorMessage ≠ "") ∧
      ((radioGroupProps groupId dir errorMessage description).ariaInvalid = none ↔
        errorMessage = "") ∧
      (radioGroupProps groupId dir errorMessage description).ariaDescribedby =
        describedBy groupId errorMessage description := by
  refine ⟨?_, ?_, rfl⟩ <;>
    by_cases h : errorMessage = "" <;> simp [radioGroupProps, h]

end Formwerk
